import Mathlib

/-!
Verification of the bulk file-upload propagator (`src/libsync/bulkpropagatorjob.cpp`).

This file gives a shallow embedding of `BulkPropagatorJob`: its per-item
pre-upload pipeline (`startUploadFile` → `slotComputeContentChecksum` →
`slotComputeTransmissionChecksum` → `slotStartUpload` → `doStartUpload`),
the bulk-PUT completion handler (`slotPutFinished`, `commonErrorHandling`,
`checkResettingErrors`), the finalizer (`finalize`), the completion path
(`done`, `handleFileRestoration`, `handleBlackList`, `handleJobDoneErrors`)
and the header assembler (`headers`).  External collaborators (journal,
account capabilities, filesystem answers, VFS, the error-classification
policy and the blacklist update) are passed in as explicit inputs; journal
writes and emitted signals are recorded as events so that ordering claims
can be stated.
-/

namespace BulkPropagator

/-- `SyncFileItem::Status` (syncfileitem.h). -/
inductive Status where
  | NoStatus
  | Success
  | Conflict
  | Restoration
  | SoftError
  | NormalError
  | FatalError
  | DetailError
  | FileIgnored
  | BlacklistedError
  | FileLocked
  | FileNameInvalid
deriving DecidableEq, Repr

/-- The csync instructions relevant to this job (`CSYNC_INSTRUCTION_*`);
`OTHER` stands for every instruction that is neither `NEW` nor
`TYPE_CHANGE` (the only two the job distinguishes). -/
inductive Instruction where
  | NEW
  | TYPE_CHANGE
  | OTHER
deriving DecidableEq, Repr

/-- `SyncJournalDb::UploadInfo` (the journal record keyed by rel path). -/
structure UploadInfo where
  valid : Bool
  chunk : Int
  transferid : Int
  modtime : Int
  errorCount : Nat
  contentChecksum : String
  size : Int
deriving DecidableEq, Repr

/-- The default-constructed `SyncJournalDb::UploadInfo()`: clearing a
file's upload info stores this record. -/
def emptyUploadInfo : UploadInfo :=
  { valid := false, chunk := 0, transferid := 0, modtime := 0,
    errorCount := 0, contentChecksum := "", size := 0 }

/-- Association-list lookup, first match wins (models the keyed stores:
`_folderQuota`, the journal upload-info table, a JSON object). -/
def lookupAssoc {α : Type} : List (String × α) → String → Option α
  | [], _ => none
  | (k, v) :: rest, key => if k = key then some v else lookupAssoc rest key

/-- Association-list update: overwrite the first binding of the key, or
append a fresh binding. -/
def setAssoc {α : Type} : List (String × α) → String → α → List (String × α)
  | [], k, v => [(k, v)]
  | (k0, v0) :: rest, k, v =>
      if k0 = k then (k0, v) :: rest else (k0, v0) :: setAssoc rest k v

/-- Modelled from the spec: `QFileInfo(file).path()` — the parent
directory of a relative path (everything before the last slash), `"."`
when the path has no slash.  (Qt's `QFileInfo` is an external library
class; the spec keys `folderQuota` by this parent path.) -/
def qfileinfoPath (s : String) : String :=
  if s.data.contains '/' then
    String.mk (((s.data.reverse.dropWhile fun c => c ≠ '/').drop 1).reverse)
  else "."

/-- `std::numeric_limits<qint64>::max()`, the default quota guess. -/
def qint64Max : Int := 2 ^ 63 - 1

/-- Modelled from the spec: `parseChecksumHeader` (common/checksums.cpp is
not part of this subtree) — splits a `"TYPE:hex"` checksum header at the
first colon into type and digest. -/
def parseChecksumHeader (header : String) : String × String :=
  if header.data.contains ':' then
    (String.mk (header.data.takeWhile fun c => c ≠ ':'),
     String.mk ((header.data.dropWhile fun c => c ≠ ':').drop 1))
  else (header, "")

/-- Modelled from the spec: `makeChecksumHeader` (common/checksums.cpp is
not part of this subtree) — `"TYPE:hex"`, empty when either part is empty. -/
def makeChecksumHeader (t hex : String) : String :=
  if t = "" ∨ hex = "" then "" else t ++ ":" ++ hex

/-- Modelled from the spec: `OCC::parseEtag`, "the server's
quote-stripping rule" — strips double quotes from the raw etag value. -/
def parseEtag (s : String) : String :=
  String.mk (s.data.filter fun c => c ≠ '"')

/-- Modelled from the spec: `OwncloudPropagator::fullLocalPath` — the
absolute local path of a relative sync path. -/
def fullLocalPath (f : String) : String := "/sync/" ++ f

/-- `fileIsStillChanging` (bulkpropagatorjob.cpp, anonymous namespace):
`msSinceMod = modtime.msecsTo(now)` and the file counts as still
changing when `msSinceMod < minimumFileAgeForUpload && msSinceMod > -10000`.
`modtimeSec` is the item's mtime in seconds; `nowMs` the current UTC
time in milliseconds. -/
def fileIsStillChanging (modtimeSec nowMs minAgeMs : Int) : Bool :=
  let msSinceMod := nowMs - modtimeSec * 1000
  if msSinceMod < minAgeMs ∧ msSinceMod > -10000 then true else false

/-- `BulkPropagatorJob::checkResettingErrors`: when the HTTP code is 412
or in the account's resettable set, increment the stored error count and
clear the whole record once the incremented count exceeds 3; the result
is what `setUploadInfo` commits. -/
def checkResettingErrors (httpErrorCode : Nat) (resettable : List Nat)
    (ui : UploadInfo) : UploadInfo :=
  if httpErrorCode = 412 ∨ httpErrorCode ∈ resettable then
    let ui2 : UploadInfo := { ui with errorCount := ui.errorCount + 1 }
    if ui2.errorCount > 3 then emptyUploadInfo else ui2
  else ui

/-- The `UploadInfo` that `BulkPropagatorJob::doStartUpload` writes and
commits (tag `"Upload info"`) before each PUT: `valid`, chunk 0, null
transfer id, the item's current modtime, **errorCount 0**, the item's
checksum header and size. -/
def doStartUploadInfoWrite (modtime : Int) (checksumHeader : String) (size : Int) : UploadInfo :=
  { valid := true, chunk := 0, transferid := 0, modtime := modtime,
    errorCount := 0, contentChecksum := checksumHeader, size := size }

/-- One failed upload attempt for a file, as far as the journal's
`UploadInfo` is concerned: `doStartUpload` first rewrites the record
(resetting `errorCount` to 0), then the bulk PUT fails with
`httpErrorCode` and `commonErrorHandling` runs `checkResettingErrors`. -/
def uploadAttemptJournal (modtime : Int) (checksumHeader : String) (size : Int)
    (httpErrorCode : Nat) (resettable : List Nat) (_ui : UploadInfo) : UploadInfo :=
  checkResettingErrors httpErrorCode resettable
    (doStartUploadInfoWrite modtime checksumHeader size)

/-! ## The per-item pre-upload pipeline

`scheduleSelfOrChild` pops an item, builds an `UploadFileInfo` and calls
`startUploadFile`, which chains through the checksum stage into
`slotStartUpload` and `doStartUpload`.  The observable actions of that
chain (journal commits, the local rename, completions, the append to the
pending batch) are recorded as an event list in program order. -/

/-- The fields of `SyncFileItem` the pre-upload pipeline reads or writes. -/
structure Item where
  file : String
  renameTarget : String
  size : Int
  modtime : Int
  checksumHeader : String
deriving DecidableEq, Repr

/-- `BulkPropagatorJob::UploadFileInfo`: relative file, absolute local
path and size of the (possibly renamed) file whose bytes are uploaded. -/
structure UploadFileInfo where
  file : String
  path : String
  size : Int
deriving DecidableEq, Repr

/-- The environment of one item's trip through the pipeline: the abort
flag, the propagator/filesystem/account answers the code consults, in
the order it consults them. -/
structure PipeEnv where
  abortRequested : Bool
  hasCaseClash : Bool
  folderQuota : List (String × Int)
  computedChecksum : String
  transmissionSupportsMD5 : Bool
  uploadChecksumOn : Bool
  computedTransmissionChecksum : String
  fileExistsAtStart : Bool
  modtimeAtHash : Int
  modtimeAtStartUpload : Int
  sizeAtStartUpload : Int
  nowMs : Int
  minAgeMs : Int
  renameSucceeds : Bool
  modtimeAfterRename : Int
deriving DecidableEq, Repr

/-- Observable actions of the pre-upload pipeline, in program order. -/
inductive PipeEv where
  | itemDone (file : String) (st : Status) (msg : String)
  | insufficientStorageSignal
  | commitUploadInfo (file : String) (info : UploadInfo)
  | renameAttempt (src dst : String)
  | batchAppend (file : String) (modtime : Int)
deriving DecidableEq, Repr

/-- `BulkPropagatorJob::doStartUpload`: abort check, then write and
commit the `UploadInfo` record (tag `"Upload info"`), then attempt the
local rename when `renameTarget` is set and differs from `file`, then
append the entry to the pending batch. -/
def doStartUploadRun (env : PipeEnv) (item : Item) (_ftu : UploadFileInfo) : List PipeEv :=
  if env.abortRequested then [] else
  let pi := doStartUploadInfoWrite item.modtime item.checksumHeader item.size
  let commitEv := PipeEv.commitUploadInfo item.file pi
  if item.renameTarget ≠ "" ∧ item.file ≠ item.renameTarget then
    if env.renameSucceeds then
      [commitEv, PipeEv.renameAttempt item.file item.renameTarget,
       PipeEv.batchAppend item.renameTarget env.modtimeAfterRename]
    else
      [commitEv, PipeEv.renameAttempt item.file item.renameTarget,
       PipeEv.itemDone item.file Status.NormalError
         "File contains trailing spaces and couldn\x27t be renamed"]
  else
    [commitEv, PipeEv.batchAppend item.file item.modtime]

/-- The checks of `BulkPropagatorJob::slotStartUpload` after the
checksum-header fix-up: the existence check, the mid-hash modification
check (current mtime against the one remembered before hashing) and the
too-young check, then `doStartUpload`.  Returns the events and the
value of `_anotherSyncNeeded` set by this item. -/
def slotStartUploadChecks (env : PipeEnv) (item : Item) (ftu : UploadFileInfo) :
    List PipeEv × Bool :=
  if ¬ env.fileExistsAtStart then
    ([PipeEv.itemDone item.file Status.SoftError ("File Removed (start upload) " ++ ftu.path)],
     false)
  else
  let prevModtime := item.modtime
  let item := { item with modtime := env.modtimeAtStartUpload }
  if prevModtime ≠ env.modtimeAtStartUpload then
    ([PipeEv.itemDone item.file Status.SoftError
        "Local file changed during syncing. It will be resumed."], true)
  else
  let ftu := { ftu with size := env.sizeAtStartUpload }
  let item := { item with size := env.sizeAtStartUpload }
  if fileIsStillChanging item.modtime env.nowMs env.minAgeMs then
    ([PipeEv.itemDone item.file Status.SoftError "Local file changed during sync."], true)
  else
    (doStartUploadRun env item ftu, false)

/-- `BulkPropagatorJob::slotStartUpload`: fix up an empty checksum
header from the transmission checksum, then run the pre-upload checks. -/
def slotStartUploadRun (env : PipeEnv) (item : Item) (ftu : UploadFileInfo)
    (transmissionChecksumType transmissionChecksum : String) : List PipeEv × Bool :=
  let transmissionChecksumHeader := makeChecksumHeader transmissionChecksumType transmissionChecksum
  let item := if item.checksumHeader = ""
    then { item with checksumHeader := transmissionChecksumHeader } else item
  slotStartUploadChecks env item ftu

/-- `BulkPropagatorJob::slotComputeTransmissionChecksum`: store the
content checksum header on the item, reuse the content checksum as the
transmission checksum when the account supports its type, else compute
a fresh transmission checksum (MD5 when upload checksums are enabled,
empty type otherwise). -/
def slotComputeTransmissionChecksumRun (env : PipeEnv) (item : Item) (ftu : UploadFileInfo)
    (contentChecksumType contentChecksum : String) : List PipeEv × Bool :=
  let item := { item with checksumHeader := makeChecksumHeader contentChecksumType contentChecksum }
  if env.transmissionSupportsMD5 then
    slotStartUploadRun env item ftu contentChecksumType contentChecksum
  else if env.uploadChecksumOn then
    slotStartUploadRun env item ftu "MD5" env.computedTransmissionChecksum
  else
    slotStartUploadRun env item ftu "" env.computedTransmissionChecksum

/-- `BulkPropagatorJob::slotComputeContentChecksum`: abort check, record
the pre-hash modtime on the item, reuse an existing MD5 checksum header
or compute a fresh MD5 digest, then continue with the transmission
checksum. -/
def slotComputeContentChecksumRun (env : PipeEnv) (item : Item) (ftu : UploadFileInfo) :
    List PipeEv × Bool :=
  if env.abortRequested then ([], false) else
  let item := { item with modtime := env.modtimeAtHash }
  let ex := parseChecksumHeader item.checksumHeader
  if ex.1 = "MD5" then
    slotComputeTransmissionChecksumRun env item ftu "MD5" ex.2
  else
    slotComputeTransmissionChecksumRun env item ftu "MD5" env.computedChecksum

/-- `BulkPropagatorJob::startUploadFile`: abort check, case-clash check,
quota-guess check (`folderQuota` value of the parent path, defaulting to
`qint64Max`), then the checksum stage. -/
def startUploadFileRun (env : PipeEnv) (item : Item) (ftu : UploadFileInfo) :
    List PipeEv × Bool :=
  if env.abortRequested then ([], false) else
  if env.hasCaseClash then
    ([PipeEv.itemDone item.file Status.NormalError
        ("File " ++ item.file ++ " cannot be uploaded because another file with the same name, differing only in case, exists")],
     false)
  else
  let quotaGuess := (lookupAssoc env.folderQuota (qfileinfoPath ftu.file)).getD qint64Max
  if ftu.size > quotaGuess then
    ([PipeEv.insufficientStorageSignal,
      PipeEv.itemDone item.file Status.DetailError
        ("Upload of " ++ toString ftu.size ++ " exceeds the quota for the folder")],
     false)
  else slotComputeContentChecksumRun env item ftu

/-- The lambda of `scheduleSelfOrChild`: build the `UploadFileInfo` from
the item and start the per-item pipeline. -/
def pipelineRun (env : PipeEnv) (item : Item) : List PipeEv × Bool :=
  startUploadFileRun env item
    { file := item.file, size := item.size, path := fullLocalPath item.file }

/-- Does a trace contain a journal `UploadInfo` commit? -/
def hasCommit (t : List PipeEv) : Bool :=
  t.any fun e => match e with
    | PipeEv.commitUploadInfo _ _ => true
    | _ => false

/-- Does a trace contain a local rename attempt? -/
def hasRenameAttempt (t : List PipeEv) : Bool :=
  t.any fun e => match e with
    | PipeEv.renameAttempt _ _ => true
    | _ => false

/-- The C1 claim, formalized on one item's pipeline trace: every
`UploadInfo` commit comes after any rename attempt (the rename being a
precondition, per the claimed order), and the committed record carries
the post-rename path and post-rename modtime (the ones the batch entry
is appended with). -/
def c1ClaimAt (t : List PipeEv) : Prop :=
  ∀ (i : Nat) (fi : String) (info : UploadInfo),
    t[i]? = some (PipeEv.commitUploadInfo fi info) →
      (∀ (j : Nat) (s d : String), t[j]? = some (PipeEv.renameAttempt s d) → j < i)
      ∧ (∀ (k : Nat) (f : String) (m : Int),
          t[k]? = some (PipeEv.batchAppend f m) → fi = f ∧ info.modtime = m)

/-- A pipeline environment whose item passes every check, with a rename
target set: mtimes agree (3), the rename succeeds and refreshes the
mtime to 5. -/
def c1Env : PipeEnv :=
  { abortRequested := false, hasCaseClash := false, folderQuota := [],
    computedChecksum := "d41d8", transmissionSupportsMD5 := true, uploadChecksumOn := true,
    computedTransmissionChecksum := "d41d8", fileExistsAtStart := true,
    modtimeAtHash := 3, modtimeAtStartUpload := 3, sizeAtStartUpload := 7,
    nowMs := 1000000000, minAgeMs := 2000, renameSucceeds := true, modtimeAfterRename := 5 }

/-- The item for the C1 run: path `a`, rename target `b`. -/
def c1Item : Item :=
  { file := "a", renameTarget := "b", size := 7, modtime := 0, checksumHeader := "" }

/-- The C6 claim's too-young predicate, read off the spec's words:
mtime newer than `now - minimumFileAgeForUpload` and not more than 10
seconds in the future. -/
def c6SpecTooYoungClaim (modtimeSec nowMs minAgeMs : Int) : Prop :=
  nowMs - modtimeSec * 1000 < minAgeMs ∧ modtimeSec * 1000 ≤ nowMs + 10000

/-- An environment whose item's mtime is exactly 10 seconds in the
future (mtime 10 s, now 0 ms, minimum age 2 s). -/
def c6Env : PipeEnv :=
  { abortRequested := false, hasCaseClash := false, folderQuota := [],
    computedChecksum := "d41d8", transmissionSupportsMD5 := true, uploadChecksumOn := true,
    computedTransmissionChecksum := "d41d8", fileExistsAtStart := true,
    modtimeAtHash := 10, modtimeAtStartUpload := 10, sizeAtStartUpload := 7,
    nowMs := 0, minAgeMs := 2000, renameSucceeds := true, modtimeAfterRename := 10 }

/-- The item for the C6 boundary run. -/
def c6Item : Item :=
  { file := "f", renameTarget := "", size := 7, modtime := 10, checksumHeader := "MD5:d41d8" }

/-- The upload-file info for the C6 runs. -/
def c6Ftu : UploadFileInfo := { file := "f", path := "/sync/f", size := 7 }

/-- An environment whose item's mtime equals `now` (now 10000 ms,
mtime 10 s), squarely inside the too-young window. -/
def c6YoungEnv : PipeEnv :=
  { c6Env with nowMs := 10000 }

/-! ## The bulk-PUT completion handler (`slotPutFinished`) -/

/-- One entry of `_uploadFileParameters` as seen by `slotPutFinished`:
the item's logical path and the size of the file that was uploaded. -/
structure PutEntry where
  file : String
  uploadSize : Int
deriving DecidableEq, Repr

/-- Environment of one `slotPutFinished` call: the transport error flag
of the single `PutMultiFileJob` (shared by every file of the batch), the
HTTP status, the error-classification policy's answer, the JSON reply
array (each element an object given as key/value pairs), and the
filesystem answers of the post-upload checks. -/
structure PutEnv where
  netErr : Bool
  httpStatus : Nat
  classifiedStatus : Status
  replyArray : List (List (String × String))
  existingFiles : List String
  unchangedFiles : List String
  resettableCodes : List Nat
deriving DecidableEq, Repr

/-- The journal/propagator state `slotPutFinished` mutates. -/
structure PutState where
  journalUpload : List (String × UploadInfo)
  folderQuota : List (String × Int)
  anotherSyncNeeded : Bool
deriving DecidableEq, Repr

/-- Observable actions of `slotPutFinished` and `commonErrorHandling`. -/
inductive PutEv where
  | itemDone (file : String) (st : Status)
  | jobAbort
  | remoteDiscoveryScheduled (file : String)
  | journalCommitUpload (file : String) (info : UploadInfo)
  | insufficientStorageSignal
  | pollStarted (file : String) (url : String)
  | etagSet (file : String) (etag : String)
  | fileIdSet (file : String) (fid : String)
  | finalizeCalled
deriving DecidableEq, Repr

/-- `getHeaderFromJsonReply`: the string value of a key of the per-file
JSON object, empty when absent. -/
def getHeaderFromJsonReply (reply : List (String × String)) (headerName : String) : String :=
  (lookupAssoc reply headerName).getD ""

/-- `getEtagFromJsonReply`: parse `OC-ETag` and `ETag`, prefer the
former, fall back to the latter when it is empty. -/
def getEtagFromJsonReply (reply : List (String × String)) : String :=
  let ocEtag := parseEtag (getHeaderFromJsonReply reply "OC-ETag")
  let etag := parseEtag (getHeaderFromJsonReply reply "ETag")
  if ocEtag = "" then etag else ocEtag

/-- `BulkPropagatorJob::commonErrorHandling`: on 412 schedule the path
for remote discovery and request another sync; run
`checkResettingErrors`; classify; on 507 lower the parent folder's quota
to `size - 1` and turn the status into `DetailError` with the
insufficient-storage signal; finally abort the multi-file job
synchronously and mark the item done (`abortWithError`). -/
def commonErrorHandlingRun (env : PutEnv) (e : PutEntry) (st : PutState) :
    PutState × List PutEv :=
  let discovery :=
    if env.httpStatus = 412 then [PutEv.remoteDiscoveryScheduled e.file] else []
  let st := if env.httpStatus = 412 then { st with anotherSyncNeeded := true } else st
  let (st, resetEvs) :=
    if env.httpStatus = 412 ∨ env.httpStatus ∈ env.resettableCodes then
      let ui := (lookupAssoc st.journalUpload e.file).getD emptyUploadInfo
      let ui := checkResettingErrors env.httpStatus env.resettableCodes ui
      ({ st with journalUpload := setAssoc st.journalUpload e.file ui },
       [PutEv.journalCommitUpload e.file ui])
    else (st, [])
  let status := env.classifiedStatus
  let (st, status, quotaEvs) :=
    if env.httpStatus = 507 then
      let p := qfileinfoPath e.file
      let newQuota := match lookupAssoc st.folderQuota p with
        | some q => min q (e.uploadSize - 1)
        | none => e.uploadSize - 1
      ({ st with folderQuota := setAssoc st.folderQuota p newQuota },
       Status.DetailError, [PutEv.insufficientStorageSignal])
    else (st, status, [])
  (st, discovery ++ resetEvs ++ quotaEvs ++ [PutEv.jobAbort, PutEv.itemDone e.file status])

/-- `BulkPropagatorJob::slotPutFinished`: iterate over the pending batch
entries; a transport error routes the current entry through
`commonErrorHandling` and returns; a 202 registers a poll job (or fails
with `"Poll URL missing"`) and returns; otherwise correlate the per-file
reply by `X-File-Path`, extract the etag, re-run the existence and
changed-file checks, record the file id and etag, and continue; after
the last entry, call `finalize`. -/
def slotPutFinishedRun (env : PutEnv) : List PutEntry → PutState → PutState × List PutEv
  | [], st => (st, [PutEv.finalizeCalled])
  | e :: rest, st =>
    if env.netErr then
      commonErrorHandlingRun env e st
    else
    let fileReply :=
      (env.replyArray.find? fun obj =>
        (lookupAssoc obj "X-File-Path").getD "" = e.file).getD []
    if env.httpStatus = 202 then
      let path := getHeaderFromJsonReply fileReply "OC-JobStatus-Location"
      if path = "" then (st, [PutEv.itemDone e.file Status.NormalError])
      else (st, [PutEv.pollStarted e.file path])
    else
    let etag := getEtagFromJsonReply fileReply
    let finished := etag ≠ ""
    if e.file ∉ env.existingFiles ∧ ¬ finished then
      (st, [PutEv.jobAbort, PutEv.itemDone e.file Status.SoftError])
    else
    let st := if e.file ∉ env.existingFiles then { st with anotherSyncNeeded := true } else st
    if e.file ∉ env.unchangedFiles ∧ ¬ finished then
      ({ st with anotherSyncNeeded := true },
       [PutEv.jobAbort, PutEv.itemDone e.file Status.SoftError])
    else
    let st := if e.file ∉ env.unchangedFiles then { st with anotherSyncNeeded := true } else st
    let fid := getHeaderFromJsonReply fileReply "OC-FileID"
    let fidEvs := if fid ≠ "" then [PutEv.fileIdSet e.file fid] else []
    let (st2, evs) := slotPutFinishedRun env rest st
    (st2, fidEvs ++ [PutEv.etagSet e.file etag] ++ evs)

/-- The file an event is about, if any. -/
def putEvFile : PutEv → Option String
  | PutEv.itemDone f _ => some f
  | PutEv.remoteDiscoveryScheduled f => some f
  | PutEv.journalCommitUpload f _ => some f
  | PutEv.pollStarted f _ => some f
  | PutEv.etagSet f _ => some f
  | PutEv.fileIdSet f _ => some f
  | PutEv.jobAbort => none
  | PutEv.insufficientStorageSignal => none
  | PutEv.finalizeCalled => none

/-- A file counts as processed by a `slotPutFinished` pass when some
event of the pass is about it. -/
def processedFile (evs : List PutEv) (f : String) : Bool :=
  evs.any fun e => putEvFile e = some f

/-! ## The finalizer (`finalize`) -/

/-- The result of `OwncloudPropagator::updateMetadata` as `finalize`
inspects it: success, an error message, or
`Vfs::ConvertToPlaceholderResult::Locked`. -/
inductive MetaResult where
  | ok
  | metaError (msg : String)
  | locked
deriving DecidableEq, Repr

/-- The VFS pin states `finalize` distinguishes. -/
inductive PinState where
  | OnlineOnly
  | Unspecified
  | AlwaysLocal
deriving DecidableEq, Repr

/-- One entry of `_uploadFileParameters` as seen by `finalize`, with the
answers of the external calls made for it. -/
structure FinEntry where
  file : String
  uploadSize : Int
  instruction : Instruction
  metaResult : MetaResult
  pin : Option PinState
deriving DecidableEq, Repr

/-- Observable actions of `finalize`. -/
inductive FinEv where
  | itemDone (file : String) (st : Status) (msg : String)
  | pinSetToUnspecified (file : String)
  | clearUploadInfo (file : String)
  | journalCommit (tag : String)
deriving DecidableEq, Repr

/-- The propagator/journal state `finalize` mutates, with the event log. -/
structure FinState where
  folderQuota : List (String × Int)
  journalUpload : List (String × UploadInfo)
  events : List FinEv
deriving DecidableEq, Repr

/-- The quota update of `finalize`: decrement the parent path's entry
when it is present, leave the map alone otherwise. -/
def decQuota (p : String) (sz : Int) (q : List (String × Int)) : List (String × Int) :=
  match lookupAssoc q p with
  | some v => setAssoc q p (v - sz)
  | none => q

/-- `BulkPropagatorJob::finalize` (the per-file loop): for each batch
entry, first decrement the parent folder's quota, then
`updateMetadata`; an error completes the item `FatalError` and returns,
`Locked` completes it `SoftError` and returns; on success drop an
online-only pin for new files, clear the file's `UploadInfo` (committed
with tag `"upload file start"`) and complete the item `Success`. -/
def finalizeRun : List FinEntry → FinState → FinState
  | [], st => st
  | e :: rest, st =>
    let st := { st with folderQuota := decQuota (qfileinfoPath e.file) e.uploadSize st.folderQuota }
    match e.metaResult with
    | MetaResult.metaError m =>
        { st with events := st.events ++
            [FinEv.itemDone e.file Status.FatalError ("Error updating metadata: " ++ m)] }
    | MetaResult.locked =>
        { st with events := st.events ++
            [FinEv.itemDone e.file Status.SoftError
              ("The file " ++ e.file ++ " is currently in use")] }
    | MetaResult.ok =>
        let pinEvs :=
          if (e.instruction = Instruction.NEW ∨ e.instruction = Instruction.TYPE_CHANGE)
              ∧ e.pin = some PinState.OnlineOnly
          then [FinEv.pinSetToUnspecified e.file] else []
        let st :=
          { st with
            journalUpload := setAssoc st.journalUpload e.file emptyUploadInfo,
            events := st.events ++ pinEvs ++
              [FinEv.clearUploadInfo e.file, FinEv.journalCommit "upload file start",
               FinEv.itemDone e.file Status.Success ""] }
        finalizeRun rest st

/-- Sum of the upload sizes of the entries whose parent path is `p`. -/
def sumSizesUnder (p : String) (entries : List FinEntry) : Int :=
  ((entries.filter fun e => qfileinfoPath e.file = p).map FinEntry.uploadSize).sum

/-- The completion event `finalize` emits for an entry whose
`updateMetadata` call failed: `FatalError` for an error result,
`SoftError` for `Locked`. -/
def finalizeFailEv (e : FinEntry) : FinEv :=
  match e.metaResult with
  | MetaResult.metaError m =>
      FinEv.itemDone e.file Status.FatalError ("Error updating metadata: " ++ m)
  | MetaResult.locked =>
      FinEv.itemDone e.file Status.SoftError ("The file " ++ e.file ++ " is currently in use")
  | MetaResult.ok => FinEv.itemDone e.file Status.Success ""

/-! ## The completion path (`done`) and the final status -/

/-- `BulkPropagatorJob::handleFileRestoration`, restricted to its effect
on the status: a restoration item completing `Success` or `Conflict`
becomes `Restoration`; every other status is kept. -/
def handleFileRestorationStatus (isRestoration : Bool) (s : Status) : Status :=
  if isRestoration ∧ (s = Status.Success ∨ s = Status.Conflict) then Status.Restoration else s

/-- The statuses for which `handleBlackList` calls
`blacklistUpdate(journal, item)` (which may itself change the status). -/
def blacklistUpdateApplies (s : Status) : Bool :=
  s = Status.SoftError ∨ s = Status.FatalError ∨ s = Status.NormalError ∨ s = Status.DetailError

/-- What each stage of `BulkPropagatorJob::done` observes for one item:
the status `handleBlackList` receives, the status `handleJobDoneErrors`
receives, and whether the latter calls `propagator()->abort()`. -/
structure DoneObs where
  seenByBlacklist : Status
  seenByFinalMapping : Status
  abortTriggered : Bool
deriving DecidableEq, Repr

/-- `BulkPropagatorJob::done`: set the status, run
`handleFileRestoration`, demote `NormalError`/`FatalError` to
`SoftError` while an abort request is ongoing, then `handleBlackList`
(whose `blacklistUpdate` call is the external `bl`), then
`handleJobDoneErrors` which calls `propagator()->abort()` exactly when
the item's status is `FatalError` at that point. -/
def doneRun (abortRequested isRestoration : Bool) (bl : Status → Status) (s : Status) :
    DoneObs :=
  let s1 := handleFileRestorationStatus isRestoration s
  let s2 := if abortRequested ∧ (s1 = Status.NormalError ∨ s1 = Status.FatalError)
            then Status.SoftError else s1
  let s3 := if blacklistUpdateApplies s2 then bl s2 else s2
  { seenByBlacklist := s2, seenByFinalMapping := s3,
    abortTriggered := s3 = Status.FatalError }

/-- The `_finalStatus` assignment of `handleJobDoneErrors`: any of the
ten non-`Success`, non-`DetailError` statuses sets `NormalError`,
`DetailError` sets `DetailError`, `Success` leaves the field alone. -/
def handleJobDoneErrorsStatus (finalStatus : Status) (itemStatus : Status) : Status :=
  match itemStatus with
  | Status.DetailError => Status.DetailError
  | Status.Success => finalStatus
  | _ => Status.NormalError

/-- `_finalStatus` after a sequence of per-item completions, starting
from `init`. -/
def finalStatusFold (init : Status) (l : List Status) : Status :=
  l.foldl handleJobDoneErrorsStatus init

/-- The image of one completed status under the `_finalStatus` mapping. -/
def lastErrorStatusMap (s : Status) : Status :=
  if s = Status.DetailError then Status.DetailError else Status.NormalError

/-! ## The header assembler (`headers`) and `computeFileId` -/

/-- `SyncJournalFileRecord`-side conflict record consulted by `headers`. -/
structure ConflictRecord where
  isValid : Bool
  initialBasePath : String
  baseFileId : String
  baseModtime : Int
  baseEtag : String
deriving DecidableEq, Repr

/-- The item fields `headers` reads. -/
structure HeaderInput where
  file : String
  modtime : Int
  etag : String
  instruction : Instruction
deriving DecidableEq, Repr

/-- Does the needle match at the head of the haystack? -/
def charListLeadMatch : List Char → List Char → Bool
  | [], _ => true
  | _ :: _, [] => false
  | a :: as, b :: bs => (a = b) && charListLeadMatch as bs

/-- Does the needle occur contiguously anywhere in the haystack? -/
def charListOccurs (needle : List Char) : List Char → Bool
  | [] => charListLeadMatch needle []
  | c :: rest => charListLeadMatch needle (c :: rest) || charListOccurs needle rest

/-- `QString::contains`: the needle occurs as a contiguous substring. -/
def qstringContainsSub (s sub : String) : Bool := charListOccurs sub.data s.data

/-- The conflict-header block of `BulkPropagatorJob::headers`: emitted
when the journal holds a valid conflict record for the file, with each
optional entry guarded by its field being populated (`baseModtime` when
different from -1). -/
def conflictHeadersFor (conflictRecord : ConflictRecord) : List (String × String) :=
  if conflictRecord.isValid then
    [("OC-Conflict", "1")]
    ++ (if conflictRecord.initialBasePath ≠ ""
        then [("OC-ConflictInitialBasePath", conflictRecord.initialBasePath)] else [])
    ++ (if conflictRecord.baseFileId ≠ ""
        then [("OC-ConflictBaseFileId", conflictRecord.baseFileId)] else [])
    ++ (if conflictRecord.baseModtime ≠ -1
        then [("OC-ConflictBaseMtime", toString conflictRecord.baseModtime)] else [])
    ++ (if conflictRecord.baseEtag ≠ ""
        then [("OC-ConflictBaseEtag", conflictRecord.baseEtag)] else [])
  else []

/-- `BulkPropagatorJob::headers`: content type and mtime always; the
lazy-ops flag from the environment; the admin-recall tag; `If-Match`
with the double-quoted etag when the etag is non-empty, not the
`empty_etag` sentinel and the instruction is neither `NEW` nor
`TYPE_CHANGE`; the conflict headers when a valid conflict record exists.
(The C++ container is a `QMap`, so its iteration order is by key; the
entries and their values are the same.) -/
def headersFor (lazyOpsEnv : Bool) (conflictRecord : ConflictRecord)
    (item : HeaderInput) : List (String × String) :=
  [("Content-Type", "application/octet-stream"),
   ("X-File-Mtime", toString item.modtime)]
  ++ (if lazyOpsEnv then [("OC-LazyOps", "true")] else [])
  ++ (if qstringContainsSub item.file ".sys.admin#recall#"
      then [("OC-Tag", ".sys.admin#recall#")] else [])
  ++ (if item.etag ≠ "" ∧ item.etag ≠ "empty_etag"
        ∧ item.instruction ≠ Instruction.NEW ∧ item.instruction ≠ Instruction.TYPE_CHANGE
      then [("If-Match", "\"" ++ item.etag ++ "\"")] else [])
  ++ conflictHeadersFor conflictRecord

/-- The item fields around `computeFileId`, to state its frame. -/
structure ReplyItem where
  file : String
  fileId : String
  etag : String
  size : Int
  modtime : Int
deriving DecidableEq, Repr

/-- `BulkPropagatorJob::computeFileId`: read `OC-FileID` from the
per-file reply; a non-empty value overwrites the item's file id (with a
logged warning when they disagree); an absent or empty value changes
nothing. -/
def computeFileId (item : ReplyItem) (fileReply : List (String × String)) : ReplyItem :=
  let fid := getHeaderFromJsonReply fileReply "OC-FileID"
  if fid ≠ "" then { item with fileId := fid } else item

/-! ## Theorems -/

theorem lookupAssoc_setAssoc_self {α : Type} (l : List (String × α)) (k : String) (v : α) :
    lookupAssoc (setAssoc l k v) k = some v := by
  induction l with
  | nil => simp [setAssoc, lookupAssoc]
  | cons hd tl ih =>
      obtain ⟨k0, v0⟩ := hd
      by_cases h : k0 = k
      · simp [setAssoc, lookupAssoc, h]
      · simp [setAssoc, lookupAssoc, h, ih]

theorem lookupAssoc_setAssoc_other {α : Type} (l : List (String × α)) (k k2 : String) (v : α)
    (h : k ≠ k2) : lookupAssoc (setAssoc l k v) k2 = lookupAssoc l k2 := by
  induction l with
  | nil => simp [setAssoc, lookupAssoc, h]
  | cons hd tl ih =>
      obtain ⟨k0, v0⟩ := hd
      by_cases h0 : k0 = k
      · subst h0
        simp [setAssoc, lookupAssoc, h]
      · simp [setAssoc, lookupAssoc, h0, ih]

/-- C10: `computeFileId` leaves `item.fileId` unchanged whenever the
per-file reply's `OC-FileID` value is absent or empty, leaves every
other field unchanged in all cases, and only a non-empty `OC-FileID`
value overwrites the previously known file id. -/
theorem C10_computeFileId_frame (item : ReplyItem) (fileReply : List (String × String)) :
    (computeFileId item fileReply).file = item.file
  ∧ (computeFileId item fileReply).etag = item.etag
  ∧ (computeFileId item fileReply).size = item.size
  ∧ (computeFileId item fileReply).modtime = item.modtime
  ∧ (getHeaderFromJsonReply fileReply "OC-FileID" = "" → computeFileId item fileReply = item)
  ∧ (getHeaderFromJsonReply fileReply "OC-FileID" ≠ "" →
      (computeFileId item fileReply).fileId = getHeaderFromJsonReply fileReply "OC-FileID") := by
  unfold computeFileId
  by_cases h : getHeaderFromJsonReply fileReply "OC-FileID" = "" <;> simp [h]

/-- C10 witness: on a reply without `OC-FileID` the item is unchanged;
a non-empty `OC-FileID` value overwrites the file id. -/
theorem C10_computeFileId_frame_witness :
    computeFileId ⟨"a", "oldfid", "e", 1, 2⟩ [] = ⟨"a", "oldfid", "e", 1, 2⟩
  ∧ (computeFileId ⟨"a", "oldfid", "e", 1, 2⟩ [("OC-FileID", "fid9")]).fileId = "fid9" :=
  ⟨(C10_computeFileId_frame ⟨"a", "oldfid", "e", 1, 2⟩ []).2.2.2.2.1 (by decide),
   (C10_computeFileId_frame ⟨"a", "oldfid", "e", 1, 2⟩ [("OC-FileID", "fid9")]).2.2.2.2.2
     (by decide)⟩

/-- C9: in `done()`, the demotion of a `NormalError`/`FatalError` status
to `SoftError` under an active abort request happens before
`handleBlackList` and `handleJobDoneErrors`: the blacklist update
observes `SoftError`, and — provided the external `blacklistUpdate`
leaves a `SoftError` item at `SoftError` — so does the `_finalStatus`
mapping, and `propagator()->abort()` is never triggered. -/
theorem C9_done_demotion_ordering (ar ir : Bool) (bl : Status → Status) (s : Status)
    (har : ar = true) (hs : s = Status.NormalError ∨ s = Status.FatalError)
    (hbl : bl Status.SoftError = Status.SoftError) :
    (doneRun ar ir bl s).seenByBlacklist = Status.SoftError
  ∧ (doneRun ar ir bl s).seenByFinalMapping = Status.SoftError
  ∧ (doneRun ar ir bl s).abortTriggered = false := by
  subst har
  rcases hs with h | h <;> subst h <;>
    simp [doneRun, handleFileRestorationStatus, blacklistUpdateApplies, hbl]

/-- C9 witness: an item completing `FatalError` under an abort request,
with a blacklist update that keeps `SoftError`, never triggers the
propagator-wide abort, and the blacklist stage sees `SoftError`. -/
theorem C9_done_demotion_ordering_witness :
    (doneRun true false id Status.FatalError).seenByBlacklist = Status.SoftError
  ∧ (doneRun true false id Status.FatalError).seenByFinalMapping = Status.SoftError
  ∧ (doneRun true false id Status.FatalError).abortTriggered = false :=
  C9_done_demotion_ordering true false id Status.FatalError rfl (Or.inr rfl) rfl

/-- Membership of a singleton-or-empty conditional list. -/
theorem mem_ite_singleton {α : Type} {c : Prop} [Decidable c] (a b : α) :
    (a ∈ if c then [b] else []) ↔ c ∧ a = b := by
  split_ifs with h <;> simp [h]

/-- No entry of the conflict-header block is keyed `If-Match`. -/
theorem ifMatch_notMem_conflictHeaders (cr : ConflictRecord) (v : String) :
    ("If-Match", v) ∉ conflictHeadersFor cr := by
  unfold conflictHeadersFor
  split_ifs <;> simp_all [mem_ite_singleton, Prod.mk.injEq]

/-- Characterization of `If-Match` membership in the assembled headers. -/
theorem mem_headersFor_ifMatch (lazy : Bool) (cr : ConflictRecord) (item : HeaderInput)
    (v : String) :
    (("If-Match", v) ∈ headersFor lazy cr item) ↔
      ((item.etag ≠ "" ∧ item.etag ≠ "empty_etag"
        ∧ item.instruction ≠ Instruction.NEW ∧ item.instruction ≠ Instruction.TYPE_CHANGE)
       ∧ v = "\"" ++ item.etag ++ "\"") := by
  unfold headersFor
  simp [List.mem_append, mem_ite_singleton, Prod.mk.injEq,
    ifMatch_notMem_conflictHeaders cr v]

/-- C7: the assembled headers contain an `If-Match` entry iff the
item's etag is non-empty, differs from the `empty_etag` sentinel and the
instruction is neither `NEW` nor `TYPE_CHANGE`; any `If-Match` value is
the etag wrapped in double quotes. -/
theorem C7_ifMatch_header_rule (lazy : Bool) (cr : ConflictRecord) (item : HeaderInput) :
    ((("If-Match", "\"" ++ item.etag ++ "\"") ∈ headersFor lazy cr item) ↔
      (item.etag ≠ "" ∧ item.etag ≠ "empty_etag"
        ∧ item.instruction ≠ Instruction.NEW ∧ item.instruction ≠ Instruction.TYPE_CHANGE))
  ∧ (∀ v, ("If-Match", v) ∈ headersFor lazy cr item → v = "\"" ++ item.etag ++ "\"") := by
  constructor
  · rw [mem_headersFor_ifMatch]
    simp
  · intro v hv
    exact ((mem_headersFor_ifMatch lazy cr item v).1 hv).2

/-- C7 witness: a concrete item with a usable etag gets the
double-quoted `If-Match` header; an item with instruction `NEW` gets
none. -/
theorem C7_ifMatch_header_rule_witness :
    ("If-Match", "\"etag1\"") ∈
      headersFor false ⟨false, "", "", -1, ""⟩ ⟨"f", 3, "etag1", Instruction.OTHER⟩
  ∧ ¬ (("If-Match", "\"etag1\"") ∈
      headersFor false ⟨false, "", "", -1, ""⟩ ⟨"f", 3, "etag1", Instruction.NEW⟩) := by
  constructor
  · exact (C7_ifMatch_header_rule false ⟨false, "", "", -1, ""⟩
      ⟨"f", 3, "etag1", Instruction.OTHER⟩).1.2 (by decide)
  · intro hmem
    have h := (C7_ifMatch_header_rule false ⟨false, "", "", -1, ""⟩
      ⟨"f", 3, "etag1", Instruction.NEW⟩).1.1 hmem
    exact h.2.2.1 rfl

/-- A non-`Success` completion overwrites `_finalStatus` with its image
under the mapping, ignoring the previous value. -/
theorem handleJobDoneErrorsStatus_ne_success (init : Status) (s : Status)
    (h : s ≠ Status.Success) :
    handleJobDoneErrorsStatus init s = lastErrorStatusMap s := by
  cases s <;> simp_all [handleJobDoneErrorsStatus, lastErrorStatusMap]

/-- C5 counterexample: the claim makes `_finalStatus` a function of the
multiset of observed statuses ("the most severe status observed"), but
the code's fold is order-dependent: the permuted sequences
`[NormalError, DetailError]` and `[DetailError, NormalError]` yield
`DetailError` and `NormalError` respectively. -/
theorem C5_finalStatus_counterexample :
    List.Perm [Status.NormalError, Status.DetailError]
      [Status.DetailError, Status.NormalError]
  ∧ finalStatusFold Status.NoStatus [Status.NormalError, Status.DetailError]
      = Status.DetailError
  ∧ finalStatusFold Status.NoStatus [Status.DetailError, Status.NormalError]
      = Status.NormalError
  ∧ finalStatusFold Status.NoStatus [Status.NormalError, Status.DetailError]
      ≠ finalStatusFold Status.NoStatus [Status.DetailError, Status.NormalError] :=
  ⟨List.Perm.swap Status.DetailError Status.NormalError [], rfl, rfl, by decide⟩

/-- C5 (amended): after any sequence of per-item completions,
`_finalStatus` is the image under the stated mapping of the **last**
non-`Success` status observed (the ten listed statuses map to
`NormalError`, `DetailError` maps to `DetailError`), and `Success`
completions leave it unchanged; it is the initial value when every
completion was `Success`. -/
theorem C5_finalStatus_last_nonsuccess (init : Status) (l : List Status) :
    finalStatusFold init l =
      match (l.filter fun s => s ≠ Status.Success).getLast? with
      | some s => lastErrorStatusMap s
      | none => init := by
  induction l using List.reverseRecOn with
  | nil => rfl
  | append_singleton rest s ih =>
      have hfold : finalStatusFold init (rest ++ [s])
          = handleJobDoneErrorsStatus (finalStatusFold init rest) s := by
        simp [finalStatusFold, List.foldl_append]
      rw [hfold, ih]
      by_cases hs : s = Status.Success
      · subst hs
        simp [List.filter_append, handleJobDoneErrorsStatus]
      · have hfil : (rest ++ [s]).filter (fun t => t ≠ Status.Success)
            = rest.filter (fun t => t ≠ Status.Success) ++ [s] := by
          simp [List.filter_append, hs]
        rw [hfil, List.getLast?_concat]
        exact handleJobDoneErrorsStatus_ne_success _ s hs

/-! ## C3: the reset-on-repeat policy -/

/-- C3 counterexample: four consecutive resettable errors (HTTP 412)
for the same file do **not** clear its `UploadInfo`: every upload
attempt first re-commits the record with `errorCount = 0`
(`doStartUpload`), so after each failed attempt the stored count is 1
and the record is still valid. -/
theorem C3_reset_counterexample :
    (uploadAttemptJournal 5 "MD5:abc" 7 412 [])^[4] emptyUploadInfo ≠ emptyUploadInfo
  ∧ ((uploadAttemptJournal 5 "MD5:abc" 7 412 [])^[4] emptyUploadInfo).errorCount = 1
  ∧ ((uploadAttemptJournal 5 "MD5:abc" 7 412 [])^[4] emptyUploadInfo).valid = true := by
  refine ⟨?_, ?_, ?_⟩ <;> decide

/-- C3 (amended): for a resettable error code (412 or in the account's
resettable set) `checkResettingErrors` increments the stored
`errorCount` by one and clears `UploadInfo` entirely once the
incremented count exceeds 3 — so four consecutive error handlings
**without** the intervening `doStartUpload` rewrite clear the record —
but each actual upload attempt first re-commits `UploadInfo` with
`errorCount = 0`, so a failed attempt always leaves the stored record
at `errorCount = 1`, never clearing it. -/
theorem C3_resetting_errors (m : Int) (cs : String) (sz : Int)
    (ui : UploadInfo) (code : Nat) (resettable : List Nat)
    (hcode : code = 412 ∨ code ∈ resettable) (hui : ui.errorCount = 0) :
    (∀ u : UploadInfo, checkResettingErrors code resettable u =
        if u.errorCount + 1 > 3 then emptyUploadInfo
        else { u with errorCount := u.errorCount + 1 })
  ∧ checkResettingErrors code resettable
      (checkResettingErrors code resettable
        (checkResettingErrors code resettable
          (checkResettingErrors code resettable ui))) = emptyUploadInfo
  ∧ (∀ u : UploadInfo, uploadAttemptJournal m cs sz code resettable u =
      { doStartUploadInfoWrite m cs sz with errorCount := 1 }) := by
  have hstep : ∀ u : UploadInfo, checkResettingErrors code resettable u =
      if u.errorCount + 1 > 3 then emptyUploadInfo
      else { u with errorCount := u.errorCount + 1 } := by
    intro u
    simp [checkResettingErrors, hcode]
  refine ⟨hstep, ?_, ?_⟩
  · have e1 : checkResettingErrors code resettable ui = { ui with errorCount := 1 } := by
      rw [hstep, hui]
      norm_num
    have e2 : checkResettingErrors code resettable { ui with errorCount := 1 }
        = { ui with errorCount := 2 } := by
      rw [hstep]
      norm_num
    have e3 : checkResettingErrors code resettable { ui with errorCount := 2 }
        = { ui with errorCount := 3 } := by
      rw [hstep]
      norm_num
    have e4 : checkResettingErrors code resettable { ui with errorCount := 3 }
        = emptyUploadInfo := by
      rw [hstep]
      norm_num
    rw [e1, e2, e3, e4]
  · intro u
    unfold uploadAttemptJournal
    rw [hstep]
    norm_num [doStartUploadInfoWrite]

/-! ## C4 and C8: the finalizer -/

theorem sumSizesUnder_cons (p : String) (e : FinEntry) (rest : List FinEntry) :
    sumSizesUnder p (e :: rest) =
      (if qfileinfoPath e.file = p then e.uploadSize else 0) + sumSizesUnder p rest := by
  by_cases h : qfileinfoPath e.file = p <;> simp [sumSizesUnder, List.filter_cons, h]

theorem lookupAssoc_decQuota_self (q : List (String × Int)) (p : String) (sz q0 : Int)
    (h : lookupAssoc q p = some q0) :
    lookupAssoc (decQuota p sz q) p = some (q0 - sz) := by
  unfold decQuota
  rw [h]
  exact lookupAssoc_setAssoc_self q p (q0 - sz)

theorem lookupAssoc_decQuota_other (q : List (String × Int)) (p2 p : String) (sz : Int)
    (h : p2 ≠ p) : lookupAssoc (decQuota p2 sz q) p = lookupAssoc q p := by
  unfold decQuota
  cases hv : lookupAssoc q p2 with
  | none => rfl
  | some v => exact lookupAssoc_setAssoc_other q p2 p (v - sz) h

/-- Unfolding `finalize` at an entry whose `updateMetadata` succeeds. -/
theorem finalizeRun_cons_ok (e : FinEntry) (rest : List FinEntry) (st : FinState)
    (he : e.metaResult = MetaResult.ok) :
    finalizeRun (e :: rest) st = finalizeRun rest
      { folderQuota := decQuota (qfileinfoPath e.file) e.uploadSize st.folderQuota,
        journalUpload := setAssoc st.journalUpload e.file emptyUploadInfo,
        events := st.events ++
          (if (e.instruction = Instruction.NEW ∨ e.instruction = Instruction.TYPE_CHANGE)
              ∧ e.pin = some PinState.OnlineOnly
           then [FinEv.pinSetToUnspecified e.file] else []) ++
          [FinEv.clearUploadInfo e.file, FinEv.journalCommit "upload file start",
           FinEv.itemDone e.file Status.Success ""] } := by
  simp only [finalizeRun, he]

/-- Unfolding `finalize` at an entry whose `updateMetadata` fails: the
loop stops after decrementing the quota and completing the item. -/
theorem finalizeRun_cons_fail (e : FinEntry) (rest : List FinEntry) (st : FinState)
    (he : e.metaResult ≠ MetaResult.ok) :
    finalizeRun (e :: rest) st =
      { st with
        folderQuota := decQuota (qfileinfoPath e.file) e.uploadSize st.folderQuota,
        events := st.events ++ [finalizeFailEv e] } := by
  cases hm : e.metaResult with
  | ok => exact absurd hm he
  | metaError m => simp only [finalizeRun, finalizeFailEv, hm]
  | locked => simp only [finalizeRun, finalizeFailEv, hm]

/-- `finalize` over a prefix of metadata-successful entries composes. -/
theorem finalizeRun_append_ok (pre l : List FinEntry) (st : FinState)
    (h : ∀ e ∈ pre, e.metaResult = MetaResult.ok) :
    finalizeRun (pre ++ l) st = finalizeRun l (finalizeRun pre st) := by
  induction pre generalizing st with
  | nil => simp [finalizeRun]
  | cons e rest ih =>
      have he := h e (List.mem_cons_self e rest)
      rw [List.cons_append, finalizeRun_cons_ok e (rest ++ l) st he,
          finalizeRun_cons_ok e rest st he]
      exact ih _ (fun x hx => h x (List.mem_cons_of_mem e hx))

/-- `finalize` only appends to the event log. -/
theorem finalizeRun_events_mono (entries : List FinEntry) (st : FinState) (x : FinEv)
    (hx : x ∈ st.events) : x ∈ (finalizeRun entries st).events := by
  induction entries generalizing st with
  | nil => exact hx
  | cons e rest ih =>
      by_cases he : e.metaResult = MetaResult.ok
      · rw [finalizeRun_cons_ok e rest st he]
        refine ih _ ?_
        simp [hx]
      · rw [finalizeRun_cons_fail e rest st he]
        simp [hx]

/-- The quota update leaves every other folder alone and shifts the
updated folder's entry down by the size, when present. -/
theorem lookupAssoc_decQuota (q : List (String × Int)) (p2 p : String) (sz : Int) :
    lookupAssoc (decQuota p2 sz q) p =
      if p2 = p then (lookupAssoc q p).map (fun v => v - sz) else lookupAssoc q p := by
  by_cases hp : p2 = p
  · subst hp
    cases hv : lookupAssoc q p2 with
    | none => simp [decQuota, hv]
    | some v => simp [lookupAssoc_decQuota_self q p2 sz v hv, hv]
  · rw [if_neg hp]
    exact lookupAssoc_decQuota_other q p2 p sz hp

/-- With only metadata-successful entries, `finalize` decrements the
quota of a folder by exactly the sizes of the entries under it. -/
theorem finalizeRun_quota_ok (entries : List FinEntry) (st : FinState) (p : String)
    (hok : ∀ e ∈ entries, e.metaResult = MetaResult.ok) :
    lookupAssoc (finalizeRun entries st).folderQuota p
      = (lookupAssoc st.folderQuota p).map (fun v => v - sumSizesUnder p entries) := by
  induction entries generalizing st with
  | nil =>
      cases hv : lookupAssoc st.folderQuota p <;>
        simp [finalizeRun, sumSizesUnder, hv]
  | cons e rest ih =>
      have he := hok e (List.mem_cons_self e rest)
      rw [finalizeRun_cons_ok e rest st he,
          ih _ (fun x hx => hok x (List.mem_cons_of_mem e hx))]
      show (lookupAssoc (decQuota (qfileinfoPath e.file) e.uploadSize st.folderQuota) p).map _
        = _
      rw [lookupAssoc_decQuota, sumSizesUnder_cons]
      by_cases hp : qfileinfoPath e.file = p
      · rw [if_pos hp, if_pos hp]
        cases hv : lookupAssoc st.folderQuota p <;> simp [hv]
        ring
      · rw [if_neg hp, if_neg hp]
        cases hv : lookupAssoc st.folderQuota p <;> simp [hv]

/-- With only metadata-successful entries, every entry is completed
with `Success`. -/
theorem finalizeRun_success_done (entries : List FinEntry) (st : FinState)
    (hok : ∀ e ∈ entries, e.metaResult = MetaResult.ok) :
    ∀ e ∈ entries, FinEv.itemDone e.file Status.Success "" ∈ (finalizeRun entries st).events := by
  induction entries generalizing st with
  | nil =>
      intro e he
      cases he
  | cons e0 rest ih =>
      intro e he
      have he0 := hok e0 (List.mem_cons_self e0 rest)
      rw [finalizeRun_cons_ok e0 rest st he0]
      rcases List.mem_cons.mp he with rfl | hmem
      · apply finalizeRun_events_mono
        simp
      · exact ih _ (fun x hx => hok x (List.mem_cons_of_mem e0 hx)) e hmem

/-- C4 counterexample: the claim says the folder quota "is never
decremented for a file that does not end as Success", but `finalize`
decrements the quota **before** calling `updateMetadata`: a single-entry
batch whose metadata update fails ends with the quota decremented from
100 to 90 while the only item completes `FatalError`, not `Success`. -/
theorem C4_quota_counterexample :
    lookupAssoc (finalizeRun
        [⟨"d/a", 10, Instruction.OTHER, MetaResult.metaError "boom", none⟩]
        ⟨[("d", 100)], [], []⟩).folderQuota "d" = some 90
  ∧ (finalizeRun [⟨"d/a", 10, Instruction.OTHER, MetaResult.metaError "boom", none⟩]
        ⟨[("d", 100)], [], []⟩).events
      = [FinEv.itemDone "d/a" Status.FatalError "Error updating metadata: boom"]
  ∧ (90 : Int) ≠ (100 : Int) := by
  refine ⟨?_, ?_, ?_⟩ <;> decide

/-- C4 (amended): if `folderQuota[p]` was defined at batch start, then —
as long as every `updateMetadata` call of the batch succeeds — after
`finalize` the quota for `p` has decreased by exactly the sum of the
sizes of the batch files under `p`, and every such file completes with
status `Success`.  (When an `updateMetadata` call fails, the failing
non-`Success` file has also had its quota decremented; see C8.) -/
theorem C4_quota_decrement (entries : List FinEntry) (st : FinState) (p : String) (q0 : Int)
    (hok : ∀ e ∈ entries, e.metaResult = MetaResult.ok)
    (hq : lookupAssoc st.folderQuota p = some q0) :
    lookupAssoc (finalizeRun entries st).folderQuota p
      = some (q0 - sumSizesUnder p entries)
  ∧ ∀ e ∈ entries, FinEv.itemDone e.file Status.Success "" ∈ (finalizeRun entries st).events := by
  refine ⟨?_, finalizeRun_success_done entries st hok⟩
  rw [finalizeRun_quota_ok entries st p hok, hq]
  rfl

/-- C4 witness: a two-file batch under folder `d` with sizes 10 and 5
brings the quota from 100 down to 85, both items completing `Success`. -/
theorem C4_quota_decrement_witness :
    lookupAssoc (finalizeRun
        [⟨"d/a", 10, Instruction.OTHER, MetaResult.ok, none⟩,
         ⟨"d/b", 5, Instruction.OTHER, MetaResult.ok, none⟩]
        ⟨[("d", 100)], [], []⟩).folderQuota "d" = some 85
  ∧ FinEv.itemDone "d/a" Status.Success "" ∈ (finalizeRun
        [⟨"d/a", 10, Instruction.OTHER, MetaResult.ok, none⟩,
         ⟨"d/b", 5, Instruction.OTHER, MetaResult.ok, none⟩]
        ⟨[("d", 100)], [], []⟩).events := by
  have h := C4_quota_decrement
    [⟨"d/a", 10, Instruction.OTHER, MetaResult.ok, none⟩,
     ⟨"d/b", 5, Instruction.OTHER, MetaResult.ok, none⟩]
    ⟨[("d", 100)], [], []⟩ "d" 100 (by decide) (by decide)
  refine ⟨?_, h.2 ⟨"d/a", 10, Instruction.OTHER, MetaResult.ok, none⟩ (by simp)⟩
  rw [h.1]
  decide

/-- C8: if `updateMetadata` fails (error or `Locked`) for some file
during finalization, `finalize` stops at that file: the run over the
whole list equals the run truncated right after the failing file (so
every later file gets no quota adjustment, no `UploadInfo` clearing, no
pin-state change and no completion), the failing item is completed with
`FatalError` (or `SoftError` for `Locked`) as the single new event, no
`UploadInfo` is cleared for it, and its own folder quota was already
decremented before the failure was detected. -/
theorem C8_finalize_stops_at_failure (pre post : List FinEntry) (e0 : FinEntry) (st : FinState)
    (hpre : ∀ e ∈ pre, e.metaResult = MetaResult.ok)
    (h0 : e0.metaResult ≠ MetaResult.ok) :
    finalizeRun (pre ++ e0 :: post) st = finalizeRun (pre ++ [e0]) st
  ∧ (finalizeRun (pre ++ e0 :: post) st).folderQuota
      = decQuota (qfileinfoPath e0.file) e0.uploadSize (finalizeRun pre st).folderQuota
  ∧ (finalizeRun (pre ++ e0 :: post) st).journalUpload
      = (finalizeRun pre st).journalUpload
  ∧ (finalizeRun (pre ++ e0 :: post) st).events
      = (finalizeRun pre st).events ++ [finalizeFailEv e0]
  ∧ (e0.metaResult = MetaResult.locked →
      finalizeFailEv e0 = FinEv.itemDone e0.file Status.SoftError
        ("The file " ++ e0.file ++ " is currently in use"))
  ∧ (∀ m, e0.metaResult = MetaResult.metaError m →
      finalizeFailEv e0 = FinEv.itemDone e0.file Status.FatalError
        ("Error updating metadata: " ++ m)) := by
  have hcomp := finalizeRun_append_ok pre (e0 :: post) st hpre
  have hcomp2 := finalizeRun_append_ok pre [e0] st hpre
  have hfail := finalizeRun_cons_fail e0 post (finalizeRun pre st) h0
  have hfail2 := finalizeRun_cons_fail e0 [] (finalizeRun pre st) h0
  refine ⟨?_, ?_, ?_, ?_, ?_, ?_⟩
  · rw [hcomp, hcomp2, hfail, hfail2]
  · rw [hcomp, hfail]
  · rw [hcomp, hfail]
  · rw [hcomp, hfail]
  · intro hl
    simp [finalizeFailEv, hl]
  · intro m hm
    simp [finalizeFailEv, hm]

/-- C8 witness: a batch `[ok-entry, locked-entry, ok-entry]` behaves
exactly like the batch truncated after the locked entry: the third file
is untouched, the locked file completes `SoftError` and its folder
quota is decremented. -/
theorem C8_finalize_stops_at_failure_witness :
    finalizeRun
        [⟨"d/a", 10, Instruction.OTHER, MetaResult.ok, none⟩,
         ⟨"d/b", 5, Instruction.OTHER, MetaResult.locked, none⟩,
         ⟨"d/c", 2, Instruction.OTHER, MetaResult.ok, none⟩]
        ⟨[("d", 100)], [], []⟩
      = finalizeRun
        [⟨"d/a", 10, Instruction.OTHER, MetaResult.ok, none⟩,
         ⟨"d/b", 5, Instruction.OTHER, MetaResult.locked, none⟩]
        ⟨[("d", 100)], [], []⟩
  ∧ finalizeFailEv ⟨"d/b", 5, Instruction.OTHER, MetaResult.locked, none⟩
      = FinEv.itemDone "d/b" Status.SoftError "The file d/b is currently in use" := by
  have h := C8_finalize_stops_at_failure
    [⟨"d/a", 10, Instruction.OTHER, MetaResult.ok, none⟩]
    [⟨"d/c", 2, Instruction.OTHER, MetaResult.ok, none⟩]
    ⟨"d/b", 5, Instruction.OTHER, MetaResult.locked, none⟩
    ⟨[("d", 100)], [], []⟩ (by decide) (by decide)
  exact ⟨h.1, h.2.2.2.2.1 rfl⟩

/-! ## C1 and C6: the pre-upload pipeline -/

/-- `doStartUpload` as a head-normal trace: when not aborted, the first
action is the `UploadInfo` commit keyed by the item's **current**
(pre-rename) path with its current modtime; only then comes the rename
attempt. -/
theorem doStartUploadRun_eq (env : PipeEnv) (item : Item) (ftu : UploadFileInfo) :
    doStartUploadRun env item ftu =
      if env.abortRequested then [] else
      PipeEv.commitUploadInfo item.file
        (doStartUploadInfoWrite item.modtime item.checksumHeader item.size)
      :: (if item.renameTarget ≠ "" ∧ item.file ≠ item.renameTarget then
            PipeEv.renameAttempt item.file item.renameTarget ::
              (if env.renameSucceeds then
                [PipeEv.batchAppend item.renameTarget env.modtimeAfterRename]
               else
                [PipeEv.itemDone item.file Status.NormalError
                  "File contains trailing spaces and couldn\x27t be renamed"])
          else [PipeEv.batchAppend item.file item.modtime]) := by
  unfold doStartUploadRun
  split_ifs <;> rfl

/-- The pre-upload checks: where the journal commit happens, what the
committed record holds, and where the rename attempt sits. -/
theorem slotStartUploadChecks_spec (env : PipeEnv) (item : Item) (ftu : UploadFileInfo) :
    (hasCommit (slotStartUploadChecks env item ftu).1 = true ↔
      (env.abortRequested = false ∧ env.fileExistsAtStart = true
        ∧ item.modtime = env.modtimeAtStartUpload
        ∧ fileIsStillChanging env.modtimeAtStartUpload env.nowMs env.minAgeMs = false))
  ∧ (hasCommit (slotStartUploadChecks env item ftu).1 = true →
      (slotStartUploadChecks env item ftu).1.head? =
        some (PipeEv.commitUploadInfo item.file
          (doStartUploadInfoWrite env.modtimeAtStartUpload item.checksumHeader
            env.sizeAtStartUpload)))
  ∧ (hasRenameAttempt (slotStartUploadChecks env item ftu).1 = true →
      (slotStartUploadChecks env item ftu).1[1]?
        = some (PipeEv.renameAttempt item.file item.renameTarget)
      ∧ hasCommit (slotStartUploadChecks env item ftu).1 = true) := by
  unfold slotStartUploadChecks
  simp only [doStartUploadRun_eq]
  by_cases hex : env.fileExistsAtStart
  case neg =>
    simp [hex, hasCommit, hasRenameAttempt]
  case pos =>
  by_cases hmod : item.modtime = env.modtimeAtStartUpload
  case neg =>
    simp [hex, hmod, hasCommit, hasRenameAttempt]
  case pos =>
  by_cases hyoung : fileIsStillChanging env.modtimeAtStartUpload env.nowMs env.minAgeMs = true
  case pos =>
    simp [hex, hmod, hyoung, hasCommit, hasRenameAttempt]
  case neg =>
  rw [Bool.not_eq_true] at hyoung
  by_cases habort : env.abortRequested
  case pos =>
    simp [hex, hmod, hyoung, habort, hasCommit, hasRenameAttempt]
  case neg =>
  rw [Bool.not_eq_true] at habort
  by_cases hren : item.renameTarget ≠ "" ∧ item.file ≠ item.renameTarget <;>
    simp [hex, hmod, hyoung, habort, hren, hasCommit, hasRenameAttempt,
      doStartUploadInfoWrite]

/-- `slotStartUpload` is the checks applied to the item with a possibly
fixed-up checksum header. -/
theorem slotStartUploadRun_eq_checks (env : PipeEnv) (item : Item) (ftu : UploadFileInfo)
    (tt tc : String) :
    ∃ cs, slotStartUploadRun env item ftu tt tc
      = slotStartUploadChecks env { item with checksumHeader := cs } ftu := by
  unfold slotStartUploadRun
  by_cases hcs : item.checksumHeader = ""
  · exact ⟨makeChecksumHeader tt tc, by simp [hcs]⟩
  · exact ⟨item.checksumHeader, by simp [hcs]⟩

/-- The checksum stage (when not aborted) only rewrites the item's
modtime (to the pre-hash read) and its checksum header before running
the pre-upload checks. -/
theorem contentStage_reaches (env : PipeEnv) (item : Item) (ftu : UploadFileInfo)
    (h : env.abortRequested = false) :
    ∃ cs, slotComputeContentChecksumRun env item ftu =
      slotStartUploadChecks env
        { item with modtime := env.modtimeAtHash, checksumHeader := cs } ftu := by
  unfold slotComputeContentChecksumRun slotComputeTransmissionChecksumRun
  simp only [h, Bool.false_eq_true, if_false]
  split_ifs <;>
    exact slotStartUploadRun_eq_checks env _ ftu _ _

/-- C1 counterexample: a passing item with rename target `b` produces
the trace `commit(a, modtime 3) ; rename(a → b) ; batch-append(b,
modtime 5)` — the `UploadInfo` record is committed **before** the
rename, keyed by the pre-rename path `a` with the pre-rename modtime 3,
refuting the claimed order (rename before the journal write) and the
claim that the committed record reflects the post-rename path and
modtime. -/
theorem C1_order_counterexample :
    (pipelineRun c1Env c1Item).1 =
      [PipeEv.commitUploadInfo "a" (doStartUploadInfoWrite 3 "MD5:d41d8" 7),
       PipeEv.renameAttempt "a" "b", PipeEv.batchAppend "b" 5]
  ∧ ¬ c1ClaimAt (pipelineRun c1Env c1Item).1 := by
  have ht : (pipelineRun c1Env c1Item).1 =
      [PipeEv.commitUploadInfo "a" (doStartUploadInfoWrite 3 "MD5:d41d8" 7),
       PipeEv.renameAttempt "a" "b", PipeEv.batchAppend "b" 5] := by
    decide
  refine ⟨ht, ?_⟩
  intro h
  rw [ht] at h
  obtain ⟨horder, _⟩ :=
    h 0 "a" (doStartUploadInfoWrite 3 "MD5:d41d8" 7) rfl
  exact absurd (horder 1 "a" "b" rfl) (by decide)

/-- C1 (amended): the per-item preconditions run in the order abort,
case-clash, quota, existence, mid-hash modification, too-young; the
`UploadInfo{valid, chunk 0, transferId 0, modtime, errorCount 0,
contentChecksum, size}` record is committed exactly when all of those
pass, as the **first** action of `doStartUpload` — keyed by the
pre-rename path with the pre-rename (current) modtime — and the local
rename, when applicable, is attempted only **after** that commit, right
before the body is attached. -/
theorem C1_journal_then_rename (env : PipeEnv) (item : Item) :
    (hasCommit (pipelineRun env item).1 = true ↔
      (env.abortRequested = false ∧ env.hasCaseClash = false
        ∧ ¬ (item.size > (lookupAssoc env.folderQuota (qfileinfoPath item.file)).getD qint64Max)
        ∧ env.fileExistsAtStart = true
        ∧ env.modtimeAtHash = env.modtimeAtStartUpload
        ∧ fileIsStillChanging env.modtimeAtStartUpload env.nowMs env.minAgeMs = false))
  ∧ (hasCommit (pipelineRun env item).1 = true →
      ∃ cs, (pipelineRun env item).1.head? = some (PipeEv.commitUploadInfo item.file
        (doStartUploadInfoWrite env.modtimeAtStartUpload cs env.sizeAtStartUpload)))
  ∧ (hasRenameAttempt (pipelineRun env item).1 = true →
      (pipelineRun env item).1[1]? = some (PipeEv.renameAttempt item.file item.renameTarget)
      ∧ hasCommit (pipelineRun env item).1 = true) := by
  by_cases habort : env.abortRequested
  case pos =>
    have hred : pipelineRun env item = ([], false) := by
      unfold pipelineRun startUploadFileRun
      simp [habort]
    rw [hred]
    simp [habort, hasCommit, hasRenameAttempt]
  case neg =>
  rw [Bool.not_eq_true] at habort
  by_cases hclash : env.hasCaseClash
  case pos =>
    have hred : (pipelineRun env item).1 =
        [PipeEv.itemDone item.file Status.NormalError
          ("File " ++ item.file ++ " cannot be uploaded because another file with the same name, differing only in case, exists")] := by
      unfold pipelineRun startUploadFileRun
      simp [habort, hclash]
    rw [hred]
    simp [hclash, hasCommit, hasRenameAttempt]
  case neg =>
  by_cases hquota : item.size >
      (lookupAssoc env.folderQuota (qfileinfoPath item.file)).getD qint64Max
  case pos =>
    have hred : (pipelineRun env item).1 =
        [PipeEv.insufficientStorageSignal,
         PipeEv.itemDone item.file Status.DetailError
           ("Upload of " ++ toString item.size ++ " exceeds the quota for the folder")] := by
      unfold pipelineRun startUploadFileRun
      simp [habort, hclash, hquota]
    rw [hred]
    simp [hquota, hasCommit, hasRenameAttempt]
  case neg =>
  obtain ⟨cs, hcs⟩ := contentStage_reaches env item
    { file := item.file, size := item.size, path := fullLocalPath item.file } habort
  have hred : pipelineRun env item =
      slotStartUploadChecks env
        { item with modtime := env.modtimeAtHash, checksumHeader := cs }
        { file := item.file, size := item.size, path := fullLocalPath item.file } := by
    unfold pipelineRun startUploadFileRun
    rw [← hcs]
    simp [habort, hclash, hquota]
  rw [hred]
  have hspec := slotStartUploadChecks_spec env
    { item with modtime := env.modtimeAtHash, checksumHeader := cs }
    { file := item.file, size := item.size, path := fullLocalPath item.file }
  refine ⟨?_, ?_, ?_⟩
  · rw [hspec.1]
    simp [habort, hclash, hquota]
  · intro hc
    exact ⟨cs, hspec.2.1 hc⟩
  · exact hspec.2.2

/-- C1 witness: on the concrete passing run with a rename, the commit
happens (as head event, per the theorem) and the rename attempt is the
second event. -/
theorem C1_journal_then_rename_witness :
    hasCommit (pipelineRun c1Env c1Item).1 = true
  ∧ (pipelineRun c1Env c1Item).1[1]? = some (PipeEv.renameAttempt "a" "b") := by
  have h := C1_journal_then_rename c1Env c1Item
  have hr : hasRenameAttempt (pipelineRun c1Env c1Item).1 = true := by decide
  have h2 := h.2.2 hr
  refine ⟨h2.2, ?_⟩
  have := h2.1
  simpa [c1Item] using this

/-- C6 counterexample: an item whose mtime is **exactly** 10 seconds in
the future (mtime 10 s, now 0) is too young per the claim (`not more
than 10 seconds in the future`), yet `fileIsStillChanging` is false
(the code requires `msSinceMod > -10000`, strictly) and the item is
accepted and uploaded: the journal commit and the batch append happen. -/
theorem C6_boundary_counterexample :
    c6SpecTooYoungClaim 10 0 2000
  ∧ fileIsStillChanging 10 0 2000 = false
  ∧ slotStartUploadChecks c6Env c6Item c6Ftu
      = ([PipeEv.commitUploadInfo "f" (doStartUploadInfoWrite 10 "MD5:d41d8" 7),
          PipeEv.batchAppend "f" 10], false) := by
  refine ⟨⟨by norm_num, by norm_num⟩, by decide, by decide⟩

/-- C6 (amended): for an item reaching the too-young check, if its
mtime is newer than `now - minimumFileAgeForUpload` and **strictly
less** than 10 seconds in the future, `anotherSyncNeeded` is set and
the item fails with `SoftError "Local file changed during sync."`
without being uploaded; an item whose mtime is 10 or more seconds in
the future passes the guard, and (the other checks passing) its
`UploadInfo` is committed and it is uploaded. -/
theorem C6_too_young_guard (env : PipeEnv) (item : Item) (ftu : UploadFileInfo)
    (habort : env.abortRequested = false)
    (hex : env.fileExistsAtStart = true)
    (hmod : item.modtime = env.modtimeAtStartUpload) :
    (fileIsStillChanging env.modtimeAtStartUpload env.nowMs env.minAgeMs = true →
      slotStartUploadChecks env item ftu =
        ([PipeEv.itemDone item.file Status.SoftError "Local file changed during sync."], true))
  ∧ (fileIsStillChanging env.modtimeAtStartUpload env.nowMs env.minAgeMs = false →
      hasCommit (slotStartUploadChecks env item ftu).1 = true
      ∧ (slotStartUploadChecks env item ftu).2 = false)
  ∧ (fileIsStillChanging env.modtimeAtStartUpload env.nowMs env.minAgeMs = true ↔
      (env.nowMs - env.modtimeAtStartUpload * 1000 < env.minAgeMs
        ∧ env.nowMs - env.modtimeAtStartUpload * 1000 > -10000)) := by
  refine ⟨?_, ?_, ?_⟩
  · intro hyoung
    unfold slotStartUploadChecks
    simp [hex, hmod, hyoung]
  · intro hyoung
    have hspec := (slotStartUploadChecks_spec env item ftu).1
    constructor
    · rw [hspec]
      exact ⟨habort, hex, hmod, hyoung⟩
    · unfold slotStartUploadChecks
      simp [hex, hmod, hyoung]
  · unfold fileIsStillChanging
    by_cases h : env.nowMs - env.modtimeAtStartUpload * 1000 < env.minAgeMs
        ∧ env.nowMs - env.modtimeAtStartUpload * 1000 > -10000 <;>
      simp [h]

/-- C6 witness: an item whose mtime equals `now` fails the guard with
the stated `SoftError` and `anotherSyncNeeded`, while the boundary item
10 seconds in the future is committed for upload. -/
theorem C6_too_young_guard_witness :
    slotStartUploadChecks c6YoungEnv c6Item c6Ftu
      = ([PipeEv.itemDone "f" Status.SoftError "Local file changed during sync."], true)
  ∧ hasCommit (slotStartUploadChecks c6Env c6Item c6Ftu).1 = true := by
  have h1 := C6_too_young_guard c6YoungEnv c6Item c6Ftu rfl rfl rfl
  have h2 := C6_too_young_guard c6Env c6Item c6Ftu rfl rfl rfl
  refine ⟨?_, (h2.2.1 (by decide)).1⟩
  have := h1.1 (by decide)
  simpa [c6Item] using this

/-! ## C2: per-item failure handling during the bulk PUT -/

/-- C2 counterexample: with a transport error on the bulk PUT and a
two-item batch, only the first item is classified and marked done (and
the job aborted); the second item of the same batch is not processed —
no event of the pass concerns it and `finalize` is never reached. -/
theorem C2_putError_counterexample :
    (slotPutFinishedRun
        ⟨true, 500, Status.NormalError, [], ["a", "b"], ["a", "b"], []⟩
        [⟨"a", 1⟩, ⟨"b", 1⟩] ⟨[], [], false⟩).2
      = [PutEv.jobAbort, PutEv.itemDone "a" Status.NormalError]
  ∧ processedFile [PutEv.jobAbort, PutEv.itemDone "a" Status.NormalError] "b" = false
  ∧ ¬ ([PutEntry.mk "a" 1, PutEntry.mk "b" 1].all fun en =>
        processedFile (slotPutFinishedRun
          ⟨true, 500, Status.NormalError, [], ["a", "b"], ["a", "b"], []⟩
          [⟨"a", 1⟩, ⟨"b", 1⟩] ⟨[], [], false⟩).2 en.file) := by
  refine ⟨?_, ?_, ?_⟩ <;> decide

/-- C2 (amended): when the bulk PUT fails (transport or HTTP error),
`slotPutFinished` routes only the **first** batch entry through
`commonErrorHandling` — which classifies it (the shared policy's
status, or `DetailError` on 507), aborts the multi-file job
synchronously and marks that one item done — and returns: no event
concerns any other file and `finalize` is not called, so the remaining
items of the batch are not processed in this pass. -/
theorem C2_putError_stops_batch (env : PutEnv) (e : PutEntry) (rest : List PutEntry)
    (st : PutState) (h : env.netErr = true) :
    slotPutFinishedRun env (e :: rest) st = commonErrorHandlingRun env e st
  ∧ PutEv.jobAbort ∈ (commonErrorHandlingRun env e st).2
  ∧ (PutEv.itemDone e.file env.classifiedStatus ∈ (commonErrorHandlingRun env e st).2
     ∨ PutEv.itemDone e.file Status.DetailError ∈ (commonErrorHandlingRun env e st).2)
  ∧ (∀ f, f ≠ e.file → processedFile (commonErrorHandlingRun env e st).2 f = false)
  ∧ PutEv.finalizeCalled ∉ (commonErrorHandlingRun env e st).2 := by
  refine ⟨by simp [slotPutFinishedRun, h], ?_, ?_, ?_, ?_⟩
  · unfold commonErrorHandlingRun
    split_ifs <;> simp
  · unfold commonErrorHandlingRun
    split_ifs <;> simp
  · intro f hf
    unfold commonErrorHandlingRun
    split_ifs <;> simp [processedFile, putEvFile, Ne.symm hf]
  · unfold commonErrorHandlingRun
    split_ifs <;> simp

/-- C2 witness: the amended behavior on the concrete two-item batch. -/
theorem C2_putError_stops_batch_witness :
    slotPutFinishedRun ⟨true, 500, Status.NormalError, [], [], [], []⟩
        [⟨"a", 1⟩, ⟨"b", 1⟩] ⟨[], [], false⟩
      = commonErrorHandlingRun ⟨true, 500, Status.NormalError, [], [], [], []⟩
        ⟨"a", 1⟩ ⟨[], [], false⟩
  ∧ processedFile (commonErrorHandlingRun ⟨true, 500, Status.NormalError, [], [], [], []⟩
        ⟨"a", 1⟩ ⟨[], [], false⟩).2 "b" = false := by
  have h := C2_putError_stops_batch ⟨true, 500, Status.NormalError, [], [], [], []⟩
    ⟨"a", 1⟩ [⟨"b", 1⟩] ⟨[], [], false⟩ rfl
  exact ⟨h.1, h.2.2.2.1 "b" (by decide)⟩

/-- C3 witness: a run of four `checkResettingErrors` calls on a record
with error count 0 clears it, while an actual failed attempt leaves the
freshly rewritten record at error count 1. -/
theorem C3_resetting_errors_witness :
    checkResettingErrors 412 []
      (checkResettingErrors 412 []
        (checkResettingErrors 412 []
          (checkResettingErrors 412 [] ⟨true, 0, 0, 5, 0, "MD5:abc", 7⟩)))
      = emptyUploadInfo
  ∧ uploadAttemptJournal 5 "MD5:abc" 7 412 [] emptyUploadInfo
      = { doStartUploadInfoWrite 5 "MD5:abc" 7 with errorCount := 1 } := by
  have h := C3_resetting_errors 5 "MD5:abc" 7 ⟨true, 0, 0, 5, 0, "MD5:abc", 7⟩ 412 []
    (Or.inl rfl) rfl
  exact ⟨h.2.1, h.2.2 emptyUploadInfo⟩

end BulkPropagator
